import Mathlib

/-!
Verification of the EquityEase multi-provider price-data caching pipeline.

This file is a shallow embedding, in Lean 4, of the caching/reconciliation
core of the repository:

* `saveToCache`, `upsertChartDataForLastDays` and the per-symbol request
  resolution of `POST` from `src/app/api/stocks/cache/route.ts`
  (the Cache Orchestrator);
* `checkDataGaps`, `upsertDailyPrices`, `fetchYahooData` and
  `maintainSymbolData` from the data-maintenance route (the Maintenance
  Sweeper);
* `getTiingoData` and `getTiingoQuote` from the Tiingo adapter route.

Modelling conventions:

* Calendar dates are day indices (`Day := Nat`) counted from an epoch that
  falls on a Monday, so `d % 7 = 5` is a Saturday and `d % 7 = 6` a Sunday.
  The source derives both "today" and its weekday from the same instant
  (`Intl.DateTimeFormat` in `America/New_York`), so a single day index with
  `d % 7` as its weekday is a faithful picture of that computation.  The
  claims under verification do not depend on the few-hour skew between the
  UTC date (used for cache-range queries) and the US-Eastern date (used by
  `saveToCache`), so both are the same index here.
* The two persistent stores are explicit values: the historical
  `daily_prices` table is a map keyed by `(symbol_id, as_of_date)`
  (`Store`), and the `price_cache` table is at most one `PointRow` per
  symbol (the code deletes all rows for the symbol before inserting).
* Database writes (supabase `insert` / `update` / `upsert`) become pure
  store transformations; upstream HTTP calls become oracle values carried
  in the environment (`SymbolEnv.yahooResp` / `SymbolEnv.tiingoResp` — what
  the endpoint would answer if called), and the per-symbol resolution
  additionally records the list of provider endpoints it contacted
  (`SymbolResult.calls`).
* JavaScript truthiness on numbers (`x || y` where `0` and `undefined` are
  falsy) is `jsOr`; `Number(x ?? 0)` / `x || 0` is `jsNum`; `s || d` on
  strings (where `""` is falsy) is `jsOrStr`.
* Symbol-registry resolution (`resolve`-or-create of the ticker row) is
  bypassed: every function takes the resolved `symbol_id` directly.  The
  `name` field of the incoming stock data feeds only that bypassed insert
  and is therefore dropped.
* Code that cannot throw in Lean is still shaped like the source's
  `try`/`catch`: adapter bodies return `Except String _`, with the `catch`
  branch applied on top, so "never throws" is a provable statement rather
  than a modelling artifact.
-/

namespace EquityEase

/-- Calendar date as a day index from an epoch Monday. -/
abbrev Day := Nat

/-- Weekend test: with an epoch Monday, `d % 7 = 5` is Saturday and
`d % 7 = 6` is Sunday.  Mirrors `etWeekday === 'Sat' || etWeekday === 'Sun'`
in `saveToCache` and `dayOfWeek === 0 || dayOfWeek === 6` in
`checkDataGaps`. -/
def isWeekend (d : Day) : Bool := d % 7 == 5 || d % 7 == 6

/-- One `daily_prices` row (a DailyBar), sans its key. -/
structure Bar where
  open_ : ℚ
  high : ℚ
  low : ℚ
  close : ℚ
  adjClose : ℚ
  volume : ℚ
  source : String
deriving DecidableEq

/-- The `daily_prices` table: at most one bar per `(symbol_id, as_of_date)`
(the table's unique composite key). -/
abbrev Store := Nat × Day → Option Bar

def emptyStore : Store := fun _ => none

/-- Insert-or-overwrite one row at its `(symbol_id, as_of_date)` key. -/
def upsertRow (st : Store) (sid : Nat) (d : Day) (b : Bar) : Store :=
  fun k => if k = (sid, d) then some b else st k

/-- Bulk upsert (`supabase.upsert` with `onConflict: 'symbol_id,as_of_date'`):
rows are applied left to right, later rows overwriting earlier ones at the
same key. -/
def upsertMany (st : Store) (sid : Nat) (bars : List (Day × Bar)) : Store :=
  bars.foldl (fun acc p => upsertRow acc sid p.1 p.2) st

/-- First-some choice on options (used to describe `upsertMany` pointwise). -/
def orOpt (a b : Option Bar) : Option Bar :=
  match a with
  | some x => some x
  | none => b

/-- The last bar of the list carrying the given date, if any. -/
def lastBar : List (Day × Bar) → Day → Option Bar
  | [], _ => none
  | p :: bs, d => orOpt (lastBar bs d) (if p.1 = d then some p.2 else none)

/-- JavaScript `Number(x ?? 0)` / `x || 0` on an optional numeric field. -/
def jsNum (x : Option ℚ) : ℚ := x.getD 0

/-- JavaScript `x || d` on an optional numeric field: `0` and `undefined`
are falsy. -/
def jsOr (x : Option ℚ) (d : ℚ) : ℚ :=
  match x with
  | some v => if v = 0 then d else v
  | none => d

/-- JavaScript `s || d` on an optional string: `""` and `undefined` are
falsy. -/
def jsOrStr (x : Option String) (d : String) : String :=
  match x with
  | some s => if s = "" then d else s
  | none => d

/-- The fields of the incoming stock-data record that `saveToCache` reads
(`StockDataRow` in the source; the unread `name` field is dropped, see the
module comment). -/
structure StockDataRow where
  currentPrice : Option ℚ
  open_ : Option ℚ
  high : Option ℚ
  low : Option ℚ
  volume : Option ℚ
deriving DecidableEq

/-- One `price_cache` row (a PointQuote), sans its symbol key.  `asOf` is a
timestamp in milliseconds. -/
structure PointRow where
  asOf : Int
  price : ℚ
  source : String
deriving DecidableEq

/-- The two cache stores as seen by one symbol: the `daily_prices` table and
this symbol's (at most one) `price_cache` row. -/
structure CacheState where
  daily : Store
  point : Option PointRow

/-- The DailyBar `saveToCache` builds from the incoming record, both for the
fresh insert and for the zero-volume in-place update (the two branches write
exactly the same fields):
`open: stockData.open || stockData.currentPrice || 0`, etc.,
`close`/`adj_close`: `stockData.currentPrice || 0`,
`volume: stockData.volume || 0`. -/
def mkDailyBar (sd : StockDataRow) (src : String) : Bar where
  open_ := jsOr sd.open_ (jsNum sd.currentPrice)
  high := jsOr sd.high (jsNum sd.currentPrice)
  low := jsOr sd.low (jsNum sd.currentPrice)
  close := jsNum sd.currentPrice
  adjClose := jsNum sd.currentPrice
  volume := jsNum sd.volume
  source := src

/-- `saveToCache` from `stocks/cache/route.ts`: on a weekday with a strictly
positive reported volume it inserts today's DailyBar if absent, or updates it
in place if the existing row has `volume = 0`; otherwise the daily table is
untouched.  When `savePriceCache` is not `false` it then replaces the
symbol's `price_cache` row (delete-then-insert) with the current price at
the current timestamp. -/
def saveToCache (sid : Nat) (sd : StockDataRow) (dataSource : String)
    (savePriceCache : Bool) (today : Day) (nowMs : Int) (st : CacheState) :
    CacheState :=
  let hasVolume : Bool := decide (0 < jsNum sd.volume)
  let daily : Store :=
    match st.daily (sid, today) with
    | none =>
        if !isWeekend today && hasVolume then
          upsertRow st.daily sid today (mkDailyBar sd dataSource)
        else
          st.daily
    | some b =>
        if !isWeekend today && hasVolume && decide (b.volume = 0) then
          upsertRow st.daily sid today (mkDailyBar sd dataSource)
        else
          st.daily
  let point : Option PointRow :=
    if savePriceCache then
      some { asOf := nowMs, price := jsNum sd.currentPrice, source := dataSource }
    else
      st.point
  { daily := daily, point := point }

/-- The normalized OHLCV chart shape of the pipeline's responses. -/
structure ChartData where
  labels : List Day
  open_ : List ℚ
  high : List ℚ
  low : List ℚ
  close : List ℚ
  volume : List ℚ
deriving DecidableEq

/-- The row `upsertChartDataForLastDays` builds for index `i`
(`chartData.open?.[i] ?? 0` etc.; `adj_close` duplicates `close`). -/
def chartRow (cd : ChartData) (src : String) (i : Nat) : Day × Bar :=
  (cd.labels.getD i 0,
   { open_ := cd.open_.getD i 0
     high := cd.high.getD i 0
     low := cd.low.getD i 0
     close := cd.close.getD i 0
     adjClose := cd.close.getD i 0
     volume := cd.volume.getD i 0
     source := src })

/-- `upsertChartDataForLastDays` from `stocks/cache/route.ts`: bulk upsert of
the chart rows with index `i ∈ [max 0 (len - days), len)`, i.e. at most the
most recent `days` entries, keyed by the chart's own date labels. -/
def upsertChartDataForLastDays (st : Store) (sid : Nat) (cd : ChartData)
    (src : String) (days : Nat) : Store :=
  let len := cd.labels.length
  if len = 0 then st
  else
    let start := len - days
    let rows := (List.range' start (len - start)).map (chartRow cd src)
    upsertMany st sid rows

/-- One raw bar as handed to the Maintenance Sweeper's `upsertDailyPrices`
(the `yahoo-finance2` historical row shape). -/
structure YPrice where
  date : Day
  open_ : Option ℚ
  high : Option ℚ
  low : Option ℚ
  close : Option ℚ
  adjClose : Option ℚ
  volume : Option ℚ
deriving DecidableEq

/-- The `daily_prices` row `upsertDailyPrices` builds from a raw bar
(`open: price.open || 0`, …, `adj_close: price.adjClose || price.close || 0`,
`source: 'yahoo_finance'`). -/
def yPriceRow (p : YPrice) : Day × Bar :=
  (p.date,
   { open_ := jsNum p.open_
     high := jsNum p.high
     low := jsNum p.low
     close := jsNum p.close
     adjClose := jsOr p.adjClose (jsNum p.close)
     volume := jsNum p.volume
     source := "yahoo_finance" })

/-- `upsertDailyPrices` from the data-maintenance route: no-op on an empty
input, otherwise a bulk upsert keyed by `(symbol_id, as_of_date)`. -/
def upsertDailyPrices (st : Store) (sid : Nat) (prices : List YPrice) : Store :=
  if prices.isEmpty then st
  else upsertMany st sid (prices.map yPriceRow)

/-- The requested lookback window (`timeRange` in the inbound request). -/
inductive TimeRange where
  | m1
  | m3
  | m6
deriving DecidableEq

/-- `requiredDays` in the orchestrator (and `lookbackDays` of its database
fallback): 30 calendar days by default, 90 for `'3m'`, 180 for `'6m'`. -/
def requiredDays : TimeRange → Nat
  | .m1 => 30
  | .m3 => 90
  | .m6 => 180

/-- The sufficiency test
`dailyPrices.length >= Math.min(requiredDays * 0.7, 10)`. -/
def sufficientB (tr : TimeRange) (len : Nat) : Bool :=
  decide (((requiredDays tr : ℚ) * (7 / 10)) ⊓ 10 ≤ (len : ℚ))

/-- The range query on `daily_prices`
(`gte as_of_date start`, `lte as_of_date stop`, ascending): the rows the
store holds for the symbol in `[start, stop]`, in ascending date order. -/
def getRange (st : Store) (sid : Nat) (start stop : Day) : List (Day × Bar) :=
  (List.range' start (stop + 1 - start)).filterMap
    fun d => (st (sid, d)).map fun b => (d, b)

/-- The chart shape of the Yahoo endpoint's answer, before normalization:
each array may be absent (the quote-only answer carries `prices`/`volumes`
instead of OHLCV arrays). -/
structure YahooChart where
  labels : Option (List Day)
  open_ : Option (List ℚ)
  high : Option (List ℚ)
  low : Option (List ℚ)
  close : Option (List ℚ)
  volume : Option (List ℚ)
  prices : Option (List ℚ)
  volumes : Option (List ℚ)
deriving DecidableEq

/-- JavaScript `a || b || []` on optional arrays: an array (even `[]`) is
truthy, so `a` wins whenever present. -/
def jsOrArr (a b : Option (List ℚ)) : List ℚ :=
  match a with
  | some l => l
  | none => b.getD []

/-- The orchestrator's normalization of the Yahoo answer
(`open: chartData.open || chartData.prices || []`, …). -/
def normYahooChart (yc : YahooChart) : ChartData where
  labels := yc.labels.getD []
  open_ := jsOrArr yc.open_ yc.prices
  high := jsOrArr yc.high yc.prices
  low := jsOrArr yc.low yc.prices
  close := jsOrArr yc.close yc.prices
  volume := jsOrArr yc.volume yc.volumes

/-- The Yahoo chart as passed through unnormalized (the fallback branch
returns and upserts `stockData.chartData` as is; a missing array reads as 0
at every index, which `getD i 0` reproduces). -/
def rawYahooChart (yc : YahooChart) : ChartData where
  labels := yc.labels.getD []
  open_ := yc.open_.getD []
  high := yc.high.getD []
  low := yc.low.getD []
  close := yc.close.getD []
  volume := yc.volume.getD []

/-- What the `/api/stocks` (Yahoo) endpoint would answer for this symbol:
the stock-data fields `saveToCache` reads plus the chart. -/
structure YahooStock where
  sd : StockDataRow
  chart : YahooChart
deriving DecidableEq

/-- What the `/api/tiingo` endpoint would answer for this symbol (its chart
always carries all six arrays). -/
structure TiingoStock where
  sd : StockDataRow
  chart : ChartData
deriving DecidableEq

/-- The response fields of the per-symbol resolution that this development
verifies (`dataSource`, `currentPrice` and the chart; the remaining numeric
fields are plain projections of the same data). -/
structure StockResp where
  dataSource : String
  currentPrice : ℚ
  chart : ChartData
deriving DecidableEq

/-- The terminal "no data" record: `dataSource = 'error'`, every chart array
empty, all numbers zero. -/
def errorResp : StockResp where
  dataSource := "error"
  currentPrice := 0
  chart := { labels := [], open_ := [], high := [], low := [], close := [], volume := [] }

/-- Everything one symbol's resolution inside `POST` can observe:
the request flags, the clock, the two cache stores, and what each upstream
endpoint would answer if called. -/
structure SymbolEnv where
  sid : Nat
  symbolKnown : Bool
  forceRefresh : Bool
  refreshDailyOnly : Bool
  timeRange : TimeRange
  today : Day
  nowMs : Int
  daily : Store
  point : Option PointRow
  yahooResp : Option YahooStock
  tiingoResp : Option TiingoStock

/-- One symbol's outcome: the response, the resulting stores, and the list
of provider endpoints contacted, in order. -/
structure SymbolResult where
  resp : StockResp
  daily : Store
  point : Option PointRow
  calls : List String

/-- The historical rows the orchestrator queries for the requested window:
`[today - requiredDays, today]`. -/
def histBars (e : SymbolEnv) : List (Day × Bar) :=
  getRange e.daily e.sid (e.today - requiredDays e.timeRange) e.today

/-- The `price_cache` lookup: most recent row, restricted to
`as_of >= now - 24h`. -/
def retrievedPoint (e : SymbolEnv) : Option PointRow :=
  e.point.bind fun p =>
    if e.nowMs - p.asOf ≤ 24 * 60 * 60 * 1000 then some p else none

/-- The staleness test on the retrieved PointQuote:
`priceCacheExpired` starts `true` and becomes
`now - as_of >= 20 minutes` when a row was found. -/
def priceCacheExpired (nowMs : Int) (q : Option PointRow) : Bool :=
  match q with
  | none => true
  | some p => decide (20 * 60 * 1000 ≤ nowMs - p.asOf)

/-- The historical-sufficiency path of the per-symbol resolution: serve the
cached rows; while here, opportunistically refresh the point cache via
`saveToCache` (passing only the latest close — no volume) when the retrieved
PointQuote is absent or stale. -/
def histPath (e : SymbolEnv) : SymbolResult :=
  let bars := histBars e
  let closes := bars.map fun p => p.2.close
  let latestClose := closes.getLastD 0
  let latestSource := bars.getLast?.map fun p => p.2.source
  let cached := retrievedPoint e
  let expired := priceCacheExpired e.nowMs cached
  let st : CacheState :=
    if cached.isNone || expired then
      saveToCache e.sid
        { currentPrice := some latestClose
          open_ := none, high := none, low := none, volume := none }
        (latestSource.getD "") (!e.refreshDailyOnly) e.today e.nowMs
        { daily := e.daily, point := e.point }
    else
      { daily := e.daily, point := e.point }
  { resp :=
      { dataSource := jsOrStr latestSource "daily_prices"
        currentPrice := latestClose
        chart :=
          { labels := bars.map Prod.fst
            open_ := bars.map fun p => p.2.open_
            high := bars.map fun p => p.2.high
            low := bars.map fun p => p.2.low
            close := closes
            volume := bars.map fun p => p.2.volume } }
    daily := st.daily
    point := st.point
    calls := [] }

/-- The Yahoo-first branch on the non-force path: `saveToCache`, then bulk
upsert of the most recent 20 days of the normalized series, then return the
series with `dataSource = 'yahoo'`. -/
def yahooFirstResult (e : SymbolEnv) (y : YahooStock) : SymbolResult :=
  let nrm := normYahooChart y.chart
  let st1 := saveToCache e.sid y.sd "yahoo" (!e.refreshDailyOnly) e.today e.nowMs
    { daily := e.daily, point := e.point }
  { resp := { dataSource := "yahoo", currentPrice := jsNum y.sd.currentPrice, chart := nrm }
    daily := upsertChartDataForLastDays st1.daily e.sid nrm "yahoo" 20
    point := st1.point
    calls := ["yahoo"] }

/-- The Tiingo success branch: `saveToCache`, bulk upsert of the most recent
20 days only under force-refresh, return with `dataSource = 'tiingo'`. -/
def tiingoSuccessResult (e : SymbolEnv) (t : TiingoStock) (calls0 : List String) :
    SymbolResult :=
  let st1 := saveToCache e.sid t.sd "tiingo" (!e.refreshDailyOnly) e.today e.nowMs
    { daily := e.daily, point := e.point }
  { resp := { dataSource := "tiingo", currentPrice := jsNum t.sd.currentPrice, chart := t.chart }
    daily :=
      if e.forceRefresh then
        upsertChartDataForLastDays st1.daily e.sid t.chart "tiingo" 20
      else
        st1.daily
    point := st1.point
    calls := calls0 }

/-- The Yahoo fallback success branch (after Tiingo): `saveToCache`, bulk
upsert of the raw chart only under force-refresh, return with
`dataSource = 'yahoo'`. -/
def yahooFallbackResult (e : SymbolEnv) (y : YahooStock) (calls1 : List String) :
    SymbolResult :=
  let st1 := saveToCache e.sid y.sd "yahoo" (!e.refreshDailyOnly) e.today e.nowMs
    { daily := e.daily, point := e.point }
  { resp := { dataSource := "yahoo", currentPrice := jsNum y.sd.currentPrice
              chart := rawYahooChart y.chart }
    daily :=
      if e.forceRefresh then
        upsertChartDataForLastDays st1.daily e.sid (rawYahooChart y.chart) "yahoo" 20
      else
        st1.daily
    point := st1.point
    calls := calls1 }

/-- The database fallback once every provider failed: serve whatever rows
exist in the window as a degraded response (`dataSource = 'daily_prices'`),
or the terminal error record when there are none (or the symbol id cannot be
resolved). -/
def dbFallback (e : SymbolEnv) (calls2 : List String) : SymbolResult :=
  let rows := if e.symbolKnown then histBars e else []
  if rows.isEmpty then
    { resp := errorResp, daily := e.daily, point := e.point, calls := calls2 }
  else
    let closes := rows.map fun p => p.2.close
    { resp :=
        { dataSource := "daily_prices"
          currentPrice := closes.getLastD 0
          chart :=
            { labels := rows.map Prod.fst
              open_ := rows.map fun p => p.2.open_
              high := rows.map fun p => p.2.high
              low := rows.map fun p => p.2.low
              close := closes
              volume := rows.map fun p => p.2.volume } }
      daily := e.daily
      point := e.point
      calls := calls2 }

/-- The Yahoo fallback stage: usable only when the answer carries a chart
with a non-empty `labels` array (a missing `labels` throws in the source and
is caught, landing in the database fallback). -/
def yahooStage (e : SymbolEnv) (calls1 : List String) : SymbolResult :=
  match e.yahooResp with
  | some y =>
      match y.chart.labels with
      | some ls =>
          if ls.isEmpty then dbFallback e (calls1 ++ ["yahoo"])
          else yahooFallbackResult e y (calls1 ++ ["yahoo"])
      | none => dbFallback e (calls1 ++ ["yahoo"])
  | none => dbFallback e (calls1 ++ ["yahoo"])

/-- The Tiingo stage: usable only when the answer's chart has non-empty
labels; otherwise fall through to the Yahoo fallback stage. -/
def tiingoStage (e : SymbolEnv) (calls0 : List String) : SymbolResult :=
  match e.tiingoResp with
  | some t =>
      if t.chart.labels.isEmpty then yahooStage e (calls0 ++ ["tiingo"])
      else tiingoSuccessResult e t (calls0 ++ ["tiingo"])
  | none => yahooStage e (calls0 ++ ["tiingo"])

/-- Provider escalation: on the non-force path Yahoo is tried first (any
answer with a chart is taken); then Tiingo; then Yahoo again; then the
database fallback.  Under force-refresh the Yahoo-first stage is skipped. -/
def escalate (e : SymbolEnv) : SymbolResult :=
  if e.forceRefresh then
    tiingoStage e []
  else
    match e.yahooResp with
    | some y => yahooFirstResult e y
    | none => tiingoStage e ["yahoo"]

/-- One symbol's resolution inside `POST` of `stocks/cache/route.ts`: with a
known symbol and no force-refresh, serve from the historical cache when the
window's row count passes the sufficiency test; otherwise escalate to the
providers. -/
def processSymbol (e : SymbolEnv) : SymbolResult :=
  if e.symbolKnown && !e.forceRefresh then
    if sufficientB e.timeRange (histBars e).length then histPath e
    else escalate e
  else escalate e

/-- The batch: each requested symbol is resolved independently
(`Promise.all` over per-symbol promises whose bodies catch their own
errors). -/
def processBatch (es : List SymbolEnv) : List SymbolResult :=
  es.map processSymbol

/-- `checkDataGaps` from the data-maintenance route: the weekday calendar
dates in `[today - lookbackDays, today]` with no `daily_prices` row for the
symbol, in ascending order. -/
def checkDataGaps (st : Store) (sid : Nat) (today lookback : Nat) : List Day :=
  (List.range' (today - lookback) (lookback + 1)).filter
    fun d => !isWeekend d && (st (sid, d)).isNone

/-- The outcome of one `maintainSymbolData` run: the resulting store, the
date range handed to the Yahoo fetch (if any fetch happened), and the rows
actually upserted. -/
structure MaintainResult where
  store : Store
  fetchedRange : Option (Day × Day)
  filled : List YPrice

/-- `maintainSymbolData` from the data-maintenance route: find the gaps; if
none, stop.  Otherwise fetch `[min gap - 2, today + 1]` from Yahoo (2 buffer
days before the earliest gap, 1 day past today), keep exactly the bars whose
date is a gap, and upsert only those. -/
def maintainSymbolData (st : Store) (sid : Nat) (today lookback : Nat)
    (fetch : Day → Day → List YPrice) : MaintainResult :=
  let missing := checkDataGaps st sid today lookback
  if missing.isEmpty then
    { store := st, fetchedRange := none, filled := [] }
  else
    let fstart := (missing.min?.getD 0) - 2
    let fstop := today + 1
    let historical := fetch fstart fstop
    let relevantData := historical.filter fun p => missing.contains p.date
    { store :=
        if relevantData.isEmpty then st
        else upsertDailyPrices st sid relevantData
      fetchedRange := some (fstart, fstop)
      filled := relevantData }

/-- A raw element of the Tiingo price-history payload (every field past the
date may be missing). -/
structure TiingoRawPrice where
  date : Day
  open_ : Option ℚ
  high : Option ℚ
  low : Option ℚ
  close : Option ℚ
  volume : Option ℚ
deriving DecidableEq

/-- The normalized historical record the Tiingo adapter produces. -/
structure HistoricalDatum where
  date : Day
  open_ : ℚ
  high : ℚ
  low : ℚ
  close : ℚ
  volume : ℚ
deriving DecidableEq

/-- The JSON body of a 2xx Tiingo answer: an array, or something else
(malformed payload). -/
inductive TiingoBody where
  | arr (items : List TiingoRawPrice)
  | notArray
deriving DecidableEq

/-- An upstream HTTP exchange: a 2xx answer with a body, a non-2xx status,
or a transport failure (the `fetch` promise rejecting). -/
inductive Upstream (β : Type) where
  | ok (body : β)
  | httpError (status : Nat)
  | netFail (msg : String)

/-- Field normalization of one raw Tiingo bar (`item.open ?? 0`, …). -/
def convertTiingo (it : TiingoRawPrice) : HistoricalDatum where
  date := it.date
  open_ := it.open_.getD 0
  high := it.high.getD 0
  low := it.low.getD 0
  close := it.close.getD 0
  volume := it.volume.getD 0

/-- Stable ascending-by-date insertion (the adapter's
`sort((a, b) => a.date - b.date)`). -/
def insertByDate (x : HistoricalDatum) : List HistoricalDatum → List HistoricalDatum
  | [] => [x]
  | y :: ys => if x.date < y.date then x :: y :: ys else y :: insertByDate x ys

def sortByDate (l : List HistoricalDatum) : List HistoricalDatum :=
  l.foldr insertByDate []

/-- The body of `getTiingoData`'s `try` block: a transport failure
propagates (models the `await` rejecting before any handler runs); a non-2xx
status and a non-array or empty payload are handled in place by returning
the empty list; otherwise the payload is normalized and sorted. -/
def getTiingoDataBody (u : Upstream TiingoBody) :
    Except String (List HistoricalDatum) :=
  match u with
  | .netFail msg => .error msg
  | .httpError _ => .ok []
  | .ok .notArray => .ok []
  | .ok (.arr items) => .ok (sortByDate (items.map convertTiingo))

/-- `getTiingoData` from the Tiingo adapter: the `try` body with the
`catch` that turns any thrown error into the empty list. -/
def getTiingoData (u : Upstream TiingoBody) : Except String (List HistoricalDatum) :=
  match getTiingoDataBody u with
  | .ok l => .ok l
  | .error _ => .ok []

/-- The JSON body of a 2xx Tiingo quote answer. -/
structure TiingoQuoteBody where
  last : Option ℚ
  high : Option ℚ
  low : Option ℚ
  open_ : Option ℚ
deriving DecidableEq

/-- The quote record the Tiingo adapter returns. -/
structure QuoteResult where
  currentPrice : ℚ
  change : ℚ
  changePercent : ℚ
  volume : ℚ
  high : ℚ
  low : ℚ
  open_ : ℚ
deriving DecidableEq

def zeroQuote : QuoteResult where
  currentPrice := 0
  change := 0
  changePercent := 0
  volume := 0
  high := 0
  low := 0
  open_ := 0

/-- The body of `getTiingoQuote`'s `try` block: a non-2xx status returns the
zeroed record in place; a transport failure propagates. -/
def getTiingoQuoteBody (u : Upstream TiingoQuoteBody) : Except String QuoteResult :=
  match u with
  | .netFail msg => .error msg
  | .httpError _ => .ok zeroQuote
  | .ok q =>
      .ok { currentPrice := jsOr q.last 0
            change := 0
            changePercent := 0
            volume := 0
            high := jsOr q.high 0
            low := jsOr q.low 0
            open_ := jsOr q.open_ 0 }

/-- `getTiingoQuote` from the Tiingo adapter: the `try` body with the
`catch` that turns any thrown error into the zeroed record. -/
def getTiingoQuote (u : Upstream TiingoQuoteBody) : Except String QuoteResult :=
  match getTiingoQuoteBody u with
  | .ok q => .ok q
  | .error _ => .ok zeroQuote

/-- `fetchYahooData` from the data-maintenance route: the `try` returns the
upstream rows, but the `catch` logs and RE-THROWS (`throw error`), so an
upstream failure propagates to the caller. -/
def fetchYahooData (upstream : Except String (List YPrice)) :
    Except String (List YPrice) :=
  match upstream with
  | .ok h => .ok h
  | .error e => .error e

end EquityEase

namespace EquityEase

/-! ## Pointwise description of the bulk upsert -/

theorem upsertMany_cons (st : Store) (sid : Nat) (p : Day × Bar) (bs : List (Day × Bar)) :
    upsertMany st sid (p :: bs) = upsertMany (upsertRow st sid p.1 p.2) sid bs := rfl

theorem orOpt_assoc (a b c : Option Bar) :
    orOpt (orOpt a b) c = orOpt a (orOpt b c) := by
  cases a <;> simp [orOpt]

theorem upsertMany_apply (st : Store) (sid : Nat) (bars : List (Day × Bar)) (k : Nat × Day) :
    upsertMany st sid bars k =
      if k.1 = sid then orOpt (lastBar bars k.2) (st k) else st k := by
  induction bars generalizing st with
  | nil =>
      by_cases h : k.1 = sid <;> simp [upsertMany, lastBar, orOpt, h]
  | cons p bs ih =>
      rw [upsertMany_cons, ih]
      by_cases h : k.1 = sid
      · have hrow : upsertRow st sid p.1 p.2 k = if p.1 = k.2 then some p.2 else st k := by
          unfold upsertRow
          by_cases h2 : p.1 = k.2
          · have hk : k = (sid, p.1) := Prod.ext h (h2.symm)
            rw [if_pos hk, if_pos h2]
          · have hk : k ≠ (sid, p.1) := by
              intro hc
              exact h2 (by rw [hc])
            rw [if_neg hk, if_neg h2]
        rw [hrow, if_pos h, if_pos h]
        simp only [lastBar]
        rw [orOpt_assoc]
        congr 1
        by_cases h2 : p.1 = k.2 <;> simp [orOpt, h2]
      · have hk : k ≠ (sid, p.1) := by
          intro hc
          exact h (by rw [hc])
        rw [if_neg h, if_neg h]
        unfold upsertRow
        rw [if_neg hk]

theorem lastBar_eq_none (bars : List (Day × Bar)) (d : Day)
    (h : ∀ p ∈ bars, p.1 ≠ d) : lastBar bars d = none := by
  induction bars with
  | nil => rfl
  | cons p bs ih =>
      have hp : p.1 ≠ d := h p (by simp)
      have hbs : ∀ q ∈ bs, q.1 ≠ d := fun q hq => h q (by simp [hq])
      simp [lastBar, ih hbs, hp, orOpt]

theorem lastBar_isSome (bars : List (Day × Bar)) (d : Day)
    (h : ∃ p ∈ bars, p.1 = d) : (lastBar bars d).isSome = true := by
  induction bars with
  | nil => simp at h
  | cons p bs ih =>
      simp only [lastBar]
      rcases h with ⟨q, hq, hqd⟩
      rcases List.mem_cons.mp hq with rfl | hbs
      · cases hl : lastBar bs d <;> simp [orOpt, hqd]
      · have := ih ⟨q, hbs, hqd⟩
        cases hl : lastBar bs d <;> simp [hl, orOpt] at this ⊢

/-! ## Frame lemmas for saveToCache -/

theorem saveToCache_daily_frame (sid : Nat) (sd : StockDataRow) (src : String)
    (spc : Bool) (today : Day) (nowMs : Int) (st : CacheState) (k : Nat × Day)
    (hk : k ≠ (sid, today)) :
    (saveToCache sid sd src spc today nowMs st).daily k = st.daily k := by
  unfold saveToCache
  cases h : st.daily (sid, today) <;> simp only [h] <;> split <;>
    simp [upsertRow, hk]

theorem saveToCache_daily_of_no_volume (sid : Nat) (sd : StockDataRow) (src : String)
    (spc : Bool) (today : Day) (nowMs : Int) (st : CacheState)
    (h : ¬ 0 < jsNum sd.volume) :
    (saveToCache sid sd src spc today nowMs st).daily = st.daily := by
  unfold saveToCache
  cases hx : st.daily (sid, today) <;> simp [h]

theorem saveToCache_point_of_savePriceCache (sid : Nat) (sd : StockDataRow)
    (src : String) (today : Day) (nowMs : Int) (st : CacheState) :
    (saveToCache sid sd src true today nowMs st).point
      = some { asOf := nowMs, price := jsNum sd.currentPrice, source := src } := by
  unfold saveToCache
  simp

theorem histPath_daily (e : SymbolEnv) : (histPath e).daily = e.daily := by
  unfold histPath
  simp only []
  split
  · exact saveToCache_daily_of_no_volume _ _ _ _ _ _ _ (by simp [jsNum])
  · rfl

/-! ## Orchestrator path characterizations -/

theorem processSymbol_hist (e : SymbolEnv) (hk : e.symbolKnown = true)
    (hf : e.forceRefresh = false)
    (hs : sufficientB e.timeRange (histBars e).length = true) :
    processSymbol e = histPath e := by
  unfold processSymbol
  rw [hk, hf]
  simp [hs]

theorem processSymbol_escalate (e : SymbolEnv)
    (h : e.forceRefresh = true ∨ e.symbolKnown = false
        ∨ sufficientB e.timeRange (histBars e).length = false) :
    processSymbol e = escalate e := by
  unfold processSymbol
  by_cases hc : e.symbolKnown && !e.forceRefresh
  · rcases h with h | h | h
    · rw [h] at hc; simp at hc
    · rw [h] at hc; simp at hc
    · simp [hc, h]
  · simp [hc]

/-! ## Gap detection helpers -/

theorem checkDataGaps_weekday (st : Store) (sid : Nat) (today lookback : Nat)
    (d : Day) (h : d ∈ checkDataGaps st sid today lookback) :
    isWeekend d = false := by
  unfold checkDataGaps at h
  have hp := List.of_mem_filter h
  rw [Bool.and_eq_true, Bool.not_eq_true'] at hp
  exact hp.1

theorem checkDataGaps_mem (st : Store) (sid : Nat) (today lookback : Nat)
    (hlb : lookback ≤ today) (d : Day) :
    d ∈ checkDataGaps st sid today lookback ↔
      today - lookback ≤ d ∧ d ≤ today ∧ isWeekend d = false ∧ st (sid, d) = none := by
  unfold checkDataGaps
  rw [List.mem_filter, List.mem_range'_1]
  have he : today - lookback + (lookback + 1) = today + 1 := by
    rw [← Nat.add_assoc, Nat.sub_add_cancel hlb]
  constructor
  · rintro ⟨⟨h1, h2⟩, hp⟩
    rw [Bool.and_eq_true, Bool.not_eq_true'] at hp
    rw [he] at h2
    refine ⟨h1, Nat.lt_succ_iff.mp h2, hp.1, ?_⟩
    simpa [Option.isNone_iff_eq_none] using hp.2
  · rintro ⟨h1, h2, hw, hn⟩
    refine ⟨⟨h1, ?_⟩, ?_⟩
    · rw [he]
      exact Nat.lt_succ_iff.mpr h2
    · simp [hw, hn]

/-! ## C6 — idempotence of the bulk upsert -/

/-- C6: for every symbol and every list of bars, running the historical-cache
bulk upsert twice with identical data leaves the Historical Cache in the same
state as running it once — each bar is inserted or overwritten keyed by
`(symbol_id, trading_date)`.  This holds for the generic keyed upsert, for the
Maintenance Sweeper's `upsertDailyPrices`, and for the Orchestrator's
`upsertChartDataForLastDays`. -/
theorem upsertMany_idempotent (st : Store) (sid : Nat) (bars : List (Day × Bar))
    (prices : List YPrice) (cd : ChartData) (src : String) (days : Nat) :
    upsertMany (upsertMany st sid bars) sid bars = upsertMany st sid bars
    ∧ upsertDailyPrices (upsertDailyPrices st sid prices) sid prices
        = upsertDailyPrices st sid prices
    ∧ upsertChartDataForLastDays (upsertChartDataForLastDays st sid cd src days)
        sid cd src days
        = upsertChartDataForLastDays st sid cd src days := by
  have key : ∀ (s : Store) (bs : List (Day × Bar)),
      upsertMany (upsertMany s sid bs) sid bs = upsertMany s sid bs := by
    intro s bs
    funext k
    rw [upsertMany_apply, upsertMany_apply]
    by_cases h : k.1 = sid
    · simp only [if_pos h]
      cases lastBar bs k.2 <;> simp [orOpt]
    · simp only [if_neg h]
  refine ⟨key st bars, ?_, ?_⟩
  · unfold upsertDailyPrices
    by_cases h : prices.isEmpty <;> simp [h, key]
  · unfold upsertChartDataForLastDays
    by_cases h : cd.labels.length = 0 <;> simp [h, key]

/-! ## C9 — zero-volume correction updates in place -/

/-- C9: if a DailyBar row already exists for today's date with volume `0` and
a later refresh on the same trading day observes strictly positive volume,
`saveToCache` updates that row in place under the same
`(symbol_id, trading_date)` key: the new prices and volume are written at
that key, every other key is untouched, and no key gains or loses a row (so
the row count is unchanged). -/
theorem saveToCache_zero_volume_correction
    (sid : Nat) (sd : StockDataRow) (src : String) (spc : Bool) (today : Day)
    (nowMs : Int) (st : CacheState) (b0 : Bar)
    (hex : st.daily (sid, today) = some b0) (hv0 : b0.volume = 0)
    (hwk : isWeekend today = false) (hvol : 0 < jsNum sd.volume) :
    (saveToCache sid sd src spc today nowMs st).daily (sid, today)
        = some (mkDailyBar sd src)
    ∧ (∀ k, k ≠ (sid, today) →
        (saveToCache sid sd src spc today nowMs st).daily k = st.daily k)
    ∧ (∀ k, ((saveToCache sid sd src spc today nowMs st).daily k).isSome
        = (st.daily k).isSome) := by
  have hd : (saveToCache sid sd src spc today nowMs st).daily
      = upsertRow st.daily sid today (mkDailyBar sd src) := by
    unfold saveToCache
    rw [hex]
    simp [hwk, hvol, hv0]
  refine ⟨?_, ?_, ?_⟩
  · rw [hd]
    simp [upsertRow]
  · intro k hk
    rw [hd]
    simp [upsertRow, hk]
  · intro k
    rw [hd]
    by_cases hk : k = (sid, today)
    · subst hk
      simp [upsertRow, hex]
    · simp [upsertRow, hk]

def b0C9 : Bar where
  open_ := 40
  high := 41
  low := 39
  close := 40
  adjClose := 40
  volume := 0
  source := "tiingo"

def stC9 : CacheState where
  daily := upsertRow emptyStore 1 100 b0C9
  point := none

def sdC9 : StockDataRow where
  currentPrice := some 50
  open_ := some 49
  high := some 51
  low := some 48
  volume := some 1500000

/-- C9 witness: a concrete zero-volume row for day 100 (a Wednesday) is
updated in place by a refresh reporting volume 1,500,000, and an unrelated
key is untouched. -/
theorem saveToCache_zero_volume_correction_witness :
    (saveToCache 1 sdC9 "tiingo" true 100 0 stC9).daily (1, 100)
        = some (mkDailyBar sdC9 "tiingo")
    ∧ (saveToCache 1 sdC9 "tiingo" true 100 0 stC9).daily (2, 100)
        = stC9.daily (2, 100) := by
  have h := saveToCache_zero_volume_correction 1 sdC9 "tiingo" true 100 0 stC9
    b0C9 (by decide) (by decide) (by decide) (by decide)
  exact ⟨h.1, h.2.1 (2, 100) (by decide)⟩

/-- For each of the three admissible windows `D ∈ {30, 90, 180}`, the
threshold `min(D * 0.7, 10)` collapses to `10` bars, so the sufficiency test
is exactly `10 ≤ length`. -/
theorem sufficientB_eq (tr : TimeRange) (len : Nat) :
    sufficientB tr len = decide (10 ≤ len) := by
  unfold sufficientB
  have hmin : ((requiredDays tr : ℚ) * (7 / 10)) ⊓ 10 = 10 := by
    cases tr <;> simp only [requiredDays] <;> rw [inf_eq_right] <;> norm_num
  rw [hmin]
  apply decide_eq_decide.mpr
  exact_mod_cast Iff.rfl

/-! ## C10 — a fresh daily row needs a strictly positive volume -/

/-- C10: `saveToCache` creates a new today's DailyBar row only when the
reported volume is strictly positive and the date is a weekday: with no
existing row and a zero or missing volume the daily table is unchanged, as
it is on a weekend; in particular the opportunistic point-cache refresh on
the historical-sufficiency path, which passes no volume, never writes a
daily bar. -/
theorem saveToCache_insert_requires_volume :
    (∀ (sid : Nat) (sd : StockDataRow) (src : String) (spc : Bool) (today : Day)
        (nowMs : Int) (st : CacheState),
        st.daily (sid, today) = none → (sd.volume = none ∨ jsNum sd.volume = 0) →
        (saveToCache sid sd src spc today nowMs st).daily = st.daily)
    ∧ (∀ (sid : Nat) (sd : StockDataRow) (src : String) (spc : Bool) (today : Day)
        (nowMs : Int) (st : CacheState),
        st.daily (sid, today) = none → isWeekend today = true →
        (saveToCache sid sd src spc today nowMs st).daily = st.daily)
    ∧ (∀ e : SymbolEnv, e.symbolKnown = true → e.forceRefresh = false →
        sufficientB e.timeRange (histBars e).length = true →
        (processSymbol e).daily = e.daily) := by
  refine ⟨?_, ?_, ?_⟩
  · intro sid sd src spc today nowMs st hnone hv
    have hnv : ¬ 0 < jsNum sd.volume := by
      rcases hv with hv | hv
      · simp [jsNum, hv]
      · simp [hv]
    exact saveToCache_daily_of_no_volume sid sd src spc today nowMs st hnv
  · intro sid sd src spc today nowMs st hnone hwk
    unfold saveToCache
    rw [hnone]
    simp [hwk]
  · intro e hk hf hs
    rw [processSymbol_hist e hk hf hs]
    exact histPath_daily e

def envC10 : SymbolEnv where
  sid := 1
  symbolKnown := true
  forceRefresh := false
  refreshDailyOnly := false
  timeRange := .m1
  today := 10000
  nowMs := 0
  daily := upsertMany emptyStore 1
    ((List.range' 9986 10).map fun d =>
      (d, { open_ := 1, high := 1, low := 1, close := 1, adjClose := 1,
            volume := 1, source := "tiingo" }))
  point := none
  yahooResp := none
  tiingoResp := none

def sdC10 : StockDataRow where
  currentPrice := some 7
  open_ := none
  high := none
  low := none
  volume := none

/-- C10 witness: a volume-less record does not create a row for an empty
day, a weekend day gets no row either, and the historical-sufficiency path
over a concrete 10-bar cache leaves the daily table unchanged. -/
theorem saveToCache_insert_requires_volume_witness :
    (saveToCache 2 sdC10 "yahoo" true 10000 0 ⟨emptyStore, none⟩).daily = emptyStore
    ∧ (saveToCache 2 sdC9 "yahoo" true 9994 0 ⟨emptyStore, none⟩).daily = emptyStore
    ∧ (processSymbol envC10).daily = envC10.daily := by
  refine ⟨?_, ?_, ?_⟩
  · exact saveToCache_insert_requires_volume.1 2 sdC10 "yahoo" true 10000 0
      ⟨emptyStore, none⟩ rfl (Or.inl rfl)
  · exact saveToCache_insert_requires_volume.2.1 2 sdC9 "yahoo" true 9994 0
      ⟨emptyStore, none⟩ rfl (by decide)
  · exact saveToCache_insert_requires_volume.2.2 envC10 rfl rfl
      (by rw [sufficientB_eq]; decide)

/-! ## C3 — the no-weekend invariant -/

def cdC3 : ChartData where
  labels := [12]
  open_ := [1]
  high := [1]
  low := [1]
  close := [1]
  volume := [1]

/-- C3 counterexample: day 12 is a Saturday, yet the Orchestrator's bulk
20-day upsert writes the adapter-supplied bar for that date verbatim into
the Historical Cache — there is no weekend guard on this write path, so the
claimed invariant fails for rows written by `upsertChartDataForLastDays`. -/
theorem weekend_row_written_by_bulk_upsert :
    isWeekend 12 = true
    ∧ upsertChartDataForLastDays emptyStore 1 cdC3 "yahoo" 20 (1, 12)
        = some { open_ := 1, high := 1, low := 1, close := 1, adjClose := 1,
                 volume := 1, source := "yahoo" } := by
  exact ⟨by decide, by decide⟩

/-- C3 amended: the single-day save (`saveToCache`) never writes a DailyBar
on a US-Eastern weekend, and the Maintenance Sweeper's gap backfill
(`maintainSymbolData`) never touches a weekend key (its gap list contains
weekdays only); but the bulk upserts (`upsertChartDataForLastDays`,
`upsertDailyPrices`) write whatever dates the adapters supply, so the
no-weekend invariant holds only for rows written by the guarded paths. -/
theorem saveToCache_and_backfill_never_write_weekend :
    (∀ (sid : Nat) (sd : StockDataRow) (src : String) (spc : Bool)
        (today : Day) (nowMs : Int) (st : CacheState) (s' : Nat) (d : Day),
        isWeekend d = true →
        (saveToCache sid sd src spc today nowMs st).daily (s', d)
          = st.daily (s', d))
    ∧ (∀ (st : Store) (sid : Nat) (today lookback : Nat)
        (fetch : Day → Day → List YPrice) (s' : Nat) (d : Day),
        isWeekend d = true →
        (maintainSymbolData st sid today lookback fetch).store (s', d)
          = st (s', d)) := by
  constructor
  · intro sid sd src spc today nowMs st s' d hw
    by_cases hk : (s', d) = (sid, today)
    · have ht : d = today := congrArg Prod.snd hk
      have hwt : isWeekend today = true := ht ▸ hw
      unfold saveToCache
      cases hx : st.daily (sid, today) <;> simp [hwt]
    · exact saveToCache_daily_frame sid sd src spc today nowMs st (s', d) hk
  · intro st sid today lookback fetch s' d hw
    unfold maintainSymbolData
    by_cases hm : (checkDataGaps st sid today lookback).isEmpty
    · simp [hm]
    · simp only [hm, Bool.false_eq_true, if_false]
      set missing := checkDataGaps st sid today lookback with hmiss
      set relevantData :=
        (fetch (missing.min?.getD 0 - 2) (today + 1)).filter
          (fun p => missing.contains p.date) with hrel
      by_cases hr : relevantData.isEmpty
      · simp [hr]
      · simp only [hr, Bool.false_eq_true, if_false]
        unfold upsertDailyPrices
        rw [if_neg (by simpa using hr)]
        rw [upsertMany_apply]
        have hnone : lastBar (relevantData.map yPriceRow) d = none := by
          apply lastBar_eq_none
          intro p hp
          obtain ⟨q, hq, rfl⟩ := List.mem_map.mp hp
          have hqm : q.date ∈ missing := by
            have := (List.mem_filter.mp (hrel ▸ hq)).2
            simpa using this
          have hwd : isWeekend q.date = false :=
            checkDataGaps_weekday st sid today lookback q.date (hmiss ▸ hqm)
          intro hqd
          rw [show (yPriceRow q).1 = q.date from rfl] at hqd
          rw [hqd, hw] at hwd
          exact Bool.true_eq_false.mp hwd  -- hwd : true = false
        rw [hnone]
        by_cases hs : s' = sid <;> simp [hs, orOpt]

/-- C3 witness: on the Saturday day 12, `saveToCache` leaves the store
untouched, and a concrete maintenance run never touches a Saturday key. -/
theorem saveToCache_and_backfill_never_write_weekend_witness :
    (saveToCache 1 sdC9 "yahoo" true 12 0 stC9).daily (1, 12) = stC9.daily (1, 12)
    ∧ (maintainSymbolData emptyStore 1 100 5 (fun _ _ => [])).store (1, 12)
        = emptyStore (1, 12) := by
  exact ⟨saveToCache_and_backfill_never_write_weekend.1 1 sdC9 "yahoo" true 12 0
           stC9 1 12 (by decide),
         saveToCache_and_backfill_never_write_weekend.2 emptyStore 1 100 5
           (fun _ _ => []) 1 12 (by decide)⟩

/-! ## C7 — adapter error behavior -/

/-- C7 counterexample: the Maintenance Sweeper's Yahoo history fetch
(`fetchYahooData`) does NOT absorb upstream failures — its `catch` logs and
re-throws — so on an upstream error the caller receives the exception, not
an empty sequence; the claim that every adapter's `fetchHistory` never
throws is false. -/
theorem fetchYahooData_rethrows :
    fetchYahooData (Except.error "upstream failure")
        = Except.error "upstream failure"
    ∧ ¬ ∃ l, fetchYahooData (Except.error "upstream failure") = Except.ok l := by
  refine ⟨rfl, ?_⟩
  rintro ⟨l, h⟩
  simp [fetchYahooData] at h

/-- C7 amended: the Tiingo adapter's history fetch never throws — every
upstream outcome (non-2xx status, malformed payload, transport failure)
yields an `ok` result, with the empty list on the failure cases — and its
quote fetch likewise always returns, with the zeroed record on failure;
but the Maintenance Sweeper's Yahoo history fetch re-throws upstream
errors (its per-symbol caller catches them). -/
theorem adapter_error_behavior :
    (∀ u, ∃ l, getTiingoData u = Except.ok l)
    ∧ (∀ s, getTiingoData (Upstream.httpError s) = Except.ok [])
    ∧ (∀ m, getTiingoData (Upstream.netFail m) = Except.ok [])
    ∧ getTiingoData (Upstream.ok TiingoBody.notArray) = Except.ok []
    ∧ (∀ u, ∃ q, getTiingoQuote u = Except.ok q)
    ∧ (∀ s, getTiingoQuote (Upstream.httpError s) = Except.ok zeroQuote)
    ∧ (∀ m, getTiingoQuote (Upstream.netFail m) = Except.ok zeroQuote)
    ∧ (∀ m, fetchYahooData (Except.error m) = Except.error m)
    ∧ (∀ l, fetchYahooData (Except.ok l) = Except.ok l) := by
  refine ⟨?_, fun s => rfl, fun m => rfl, rfl, ?_, fun s => rfl, fun m => rfl,
    fun m => rfl, fun l => rfl⟩
  · intro u
    cases u with
    | ok body => cases body <;> exact ⟨_, rfl⟩
    | httpError s => exact ⟨[], rfl⟩
    | netFail m => exact ⟨[], rfl⟩
  · intro u
    cases u with
    | ok q => exact ⟨_, rfl⟩
    | httpError s => exact ⟨zeroQuote, rfl⟩
    | netFail m => exact ⟨zeroQuote, rfl⟩

/-! ## C8 — gap detection and backfill -/

theorem maintainSymbolData_of_gaps (st : Store) (sid : Nat) (today lookback : Nat)
    (fetch : Day → Day → List YPrice)
    (hm : (checkDataGaps st sid today lookback).isEmpty = false) :
    (maintainSymbolData st sid today lookback fetch).fetchedRange
        = some ((checkDataGaps st sid today lookback).min?.getD 0 - 2, today + 1)
    ∧ (maintainSymbolData st sid today lookback fetch).filled
        = (fetch ((checkDataGaps st sid today lookback).min?.getD 0 - 2)
            (today + 1)).filter
            (fun p => (checkDataGaps st sid today lookback).contains p.date)
    ∧ (maintainSymbolData st sid today lookback fetch).store
        = (if (maintainSymbolData st sid today lookback fetch).filled.isEmpty
           then st
           else upsertDailyPrices st sid
             (maintainSymbolData st sid today lookback fetch).filled) := by
  refine ⟨?_, ?_, ?_⟩ <;>
    simp only [maintainSymbolData, hm, Bool.false_eq_true, if_false]

/-- C8: `checkDataGaps` returns exactly the weekday calendar dates in
`[today - lookback, today]` that have no Historical Cache row, in ascending
order, with weekend dates never reported; and the backfill fetches the
covering range `[min gap - 2, today + 1]` (2 buffer days at the start, 1 day
past today), keeps only bars whose date is a gap, and upserts only those —
every key outside the symbol's gap dates, in particular every previously
present row, is untouched. -/
theorem checkDataGaps_and_backfill (st : Store) (sid : Nat) (today lookback : Nat)
    (fetch : Day → Day → List YPrice) (hlb : lookback ≤ today) :
    (∀ d, d ∈ checkDataGaps st sid today lookback ↔
      (today - lookback ≤ d ∧ d ≤ today ∧ isWeekend d = false
        ∧ st (sid, d) = none))
    ∧ (checkDataGaps st sid today lookback).Pairwise (· < ·)
    ∧ ((checkDataGaps st sid today lookback).isEmpty = false →
        (maintainSymbolData st sid today lookback fetch).fetchedRange
          = some ((checkDataGaps st sid today lookback).min?.getD 0 - 2, today + 1))
    ∧ (∀ p ∈ (maintainSymbolData st sid today lookback fetch).filled,
        p.date ∈ checkDataGaps st sid today lookback)
    ∧ (∀ k : Nat × Day,
        k.1 ≠ sid ∨ k.2 ∉ checkDataGaps st sid today lookback →
        (maintainSymbolData st sid today lookback fetch).store k = st k)
    ∧ (∀ k : Nat × Day, st k ≠ none →
        (maintainSymbolData st sid today lookback fetch).store k = st k) := by
  have hmem := checkDataGaps_mem st sid today lookback hlb
  have hfill : ∀ p ∈ (maintainSymbolData st sid today lookback fetch).filled,
      p.date ∈ checkDataGaps st sid today lookback := by
    intro p hp
    by_cases hm : (checkDataGaps st sid today lookback).isEmpty
    · rw [show (maintainSymbolData st sid today lookback fetch).filled = [] by
        simp only [maintainSymbolData, hm, if_true]] at hp
      simp at hp
    · rw [(maintainSymbolData_of_gaps st sid today lookback fetch
        (by simpa using hm)).2.1] at hp
      have := (List.mem_filter.mp hp).2
      simpa using this
  have hframe : ∀ k : Nat × Day,
      k.1 ≠ sid ∨ k.2 ∉ checkDataGaps st sid today lookback →
      (maintainSymbolData st sid today lookback fetch).store k = st k := by
    intro k hk
    by_cases hm : (checkDataGaps st sid today lookback).isEmpty
    · rw [show (maintainSymbolData st sid today lookback fetch).store = st by
        simp only [maintainSymbolData, hm, if_true]]
    · have hg := maintainSymbolData_of_gaps st sid today lookback fetch
        (by simpa using hm)
      rw [hg.2.2]
      by_cases hr : (maintainSymbolData st sid today lookback fetch).filled.isEmpty
      · rw [if_pos hr]
      · rw [if_neg hr]
        unfold upsertDailyPrices
        rw [if_neg hr]
        rw [upsertMany_apply]
        rcases hk with hk | hk
        · rw [if_neg hk]
        · by_cases hs : k.1 = sid
          · rw [if_pos hs]
            have hnone : lastBar
                ((maintainSymbolData st sid today lookback fetch).filled.map yPriceRow)
                k.2 = none := by
              apply lastBar_eq_none
              intro q hq
              obtain ⟨p, hp, rfl⟩ := List.mem_map.mp hq
              intro hqd
              exact hk (hqd ▸ hfill p hp)
            rw [hnone]
            rfl
          · rw [if_neg hs]
  refine ⟨hmem, ?_, ?_, hfill, hframe, ?_⟩
  · unfold checkDataGaps
    exact (List.pairwise_lt_range' _ _).sublist (List.filter_sublist _)
  · intro hm
    exact (maintainSymbolData_of_gaps st sid today lookback fetch hm).1
  · intro k hne
    apply hframe
    by_cases hs : k.1 = sid
    · right
      intro hmem2
      have := ((hmem k.2).mp hmem2).2.2.2
      rw [← hs] at this
      exact hne this
    · exact Or.inl hs

def barC8 : Bar where
  open_ := 3
  high := 3
  low := 3
  close := 3
  adjClose := 3
  volume := 3
  source := "yahoo_finance"

/-- A Historical Cache holding every weekday of `[9990, 10000]` except the
Wednesday 9998. -/
def storeC8 : Store :=
  upsertMany emptyStore 1
    ([9990, 9991, 9992, 9993, 9996, 9997, 9999, 10000].map fun d => (d, barC8))

def fetchC8 : Day → Day → List YPrice := fun _ _ =>
  [{ date := 9997, open_ := some 2, high := some 2, low := some 2,
     close := some 2, adjClose := some 2, volume := some 2 },
   { date := 9998, open_ := some 2, high := some 2, low := some 2,
     close := some 2, adjClose := some 2, volume := some 2 }]

/-- C8 witness: with one Wednesday (day 9998) missing from a 10-day window,
9998 is a gap, the fetch range carries the 2-day head buffer and 1 day past
today, and the already-present Tuesday row (day 9997) is untouched even
though the fetch also returned a bar for it. -/
theorem checkDataGaps_and_backfill_witness :
    9998 ∈ checkDataGaps storeC8 1 10000 10
    ∧ (maintainSymbolData storeC8 1 10000 10 fetchC8).fetchedRange
        = some ((checkDataGaps storeC8 1 10000 10).min?.getD 0 - 2, 10000 + 1)
    ∧ (maintainSymbolData storeC8 1 10000 10 fetchC8).store (1, 9997)
        = storeC8 (1, 9997) := by
  have h := checkDataGaps_and_backfill storeC8 1 10000 10 fetchC8 (by decide)
  exact ⟨(h.1 9998).mpr (by decide), h.2.2.1 (by decide),
    h.2.2.2.2.1 (1, 9997) (by decide)⟩

/-! ## C5 — point-cache staleness boundary -/

/-- C5: the Orchestrator classifies a retrieved PointQuote as stale exactly
when `now - observed_at >= 20 minutes`; on the historical-sufficiency path a
quote observed 19 minutes ago is fresh (the point cache is not refreshed),
and one observed 21 minutes ago is stale (the point cache is rewritten with
the current timestamp). -/
theorem pointQuote_staleness (e : SymbolEnv) (p : PointRow)
    (hk : e.symbolKnown = true) (hf : e.forceRefresh = false)
    (hs : sufficientB e.timeRange (histBars e).length = true)
    (hp : e.point = some p) (hr : e.refreshDailyOnly = false) :
    (priceCacheExpired e.nowMs (some p) = true
        ↔ 20 * 60 * 1000 ≤ e.nowMs - p.asOf)
    ∧ (e.nowMs - p.asOf = 19 * 60 * 1000 →
        (processSymbol e).point = e.point)
    ∧ (e.nowMs - p.asOf = 21 * 60 * 1000 →
        ∃ q : PointRow, (processSymbol e).point = some q ∧ q.asOf = e.nowMs) := by
  rw [processSymbol_hist e hk hf hs]
  refine ⟨by simp [priceCacheExpired], ?_, ?_⟩
  · intro h19
    have hcached : retrievedPoint e = some p := by
      unfold retrievedPoint
      rw [hp]
      simp only [Option.some_bind]
      rw [if_pos (by rw [h19]; norm_num)]
    have hexp : priceCacheExpired e.nowMs (some p) = false := by
      simp only [priceCacheExpired, h19]
      norm_num
    simp [histPath, hcached, hexp]
  · intro h21
    have hcached : retrievedPoint e = some p := by
      unfold retrievedPoint
      rw [hp]
      simp only [Option.some_bind]
      rw [if_pos (by rw [h21]; norm_num)]
    have hexp : priceCacheExpired e.nowMs (some p) = true := by
      simp only [priceCacheExpired, h21]
      norm_num
    simp only [histPath, hcached, hexp, hr, Option.isNone_some, Bool.false_or,
      Bool.not_false, if_true]
    rw [saveToCache_point_of_savePriceCache]
    exact ⟨_, rfl, rfl⟩

def pC5 : PointRow where
  asOf := -1140000
  price := 5
  source := "tiingo"

def pC5b : PointRow where
  asOf := -1260000
  price := 5
  source := "tiingo"

def dailyC5 : Store :=
  upsertMany emptyStore 1 ((List.range' 9986 10).map fun d => (d, barC8))

def envC5 : SymbolEnv where
  sid := 1
  symbolKnown := true
  forceRefresh := false
  refreshDailyOnly := false
  timeRange := .m1
  today := 10000
  nowMs := 0
  daily := dailyC5
  point := some pC5
  yahooResp := none
  tiingoResp := none

def envC5b : SymbolEnv where
  sid := 1
  symbolKnown := true
  forceRefresh := false
  refreshDailyOnly := false
  timeRange := .m1
  today := 10000
  nowMs := 0
  daily := dailyC5
  point := some pC5b
  yahooResp := none
  tiingoResp := none

/-- C5 witness: on a concrete sufficient cache, a quote observed 19 minutes
ago is left in place, and one observed 21 minutes ago is replaced by a quote
stamped now. -/
theorem pointQuote_staleness_witness :
    (processSymbol envC5).point = envC5.point
    ∧ (∃ q : PointRow, (processSymbol envC5b).point = some q
        ∧ q.asOf = envC5b.nowMs) := by
  constructor
  · exact (pointQuote_staleness envC5 pC5 rfl rfl (by rw [sufficientB_eq]; decide)
      rfl rfl).2.1 (by decide)
  · exact (pointQuote_staleness envC5b pC5b rfl rfl (by rw [sufficientB_eq]; decide)
      rfl rfl).2.2 (by decide)

/-! ## Call traces of the escalation stages -/

theorem dbFallback_calls (e : SymbolEnv) (c : List String) :
    (dbFallback e c).calls = c := by
  simp only [dbFallback]
  split <;> split <;> rfl

theorem yahooStage_calls (e : SymbolEnv) (c : List String) :
    (yahooStage e c).calls = c ++ ["yahoo"] := by
  unfold yahooStage
  cases e.yahooResp with
  | none => rw [dbFallback_calls]
  | some y =>
      dsimp only
      cases y.chart.labels with
      | none => rw [dbFallback_calls]
      | some ls =>
          dsimp only
          by_cases he : ls.isEmpty = true
          · rw [if_pos he, dbFallback_calls]
          · rw [if_neg he]
            rfl

theorem tiingoStage_calls (e : SymbolEnv) (c : List String) :
    (tiingoStage e c).calls = c ++ ["tiingo"]
    ∨ (tiingoStage e c).calls = (c ++ ["tiingo"]) ++ ["yahoo"] := by
  unfold tiingoStage
  cases e.tiingoResp with
  | none =>
      right
      rw [yahooStage_calls]
  | some t =>
      dsimp only
      by_cases he : t.chart.labels.isEmpty = true
      · right
        rw [if_pos he, yahooStage_calls]
      · left
        rw [if_neg he]
        rfl

theorem escalate_calls_ne_nil (e : SymbolEnv) (hf : e.forceRefresh = false) :
    (escalate e).calls ≠ [] := by
  unfold escalate
  rw [hf]
  simp only [Bool.false_eq_true, if_false]
  cases e.yahooResp with
  | some y => simp [yahooFirstResult]
  | none =>
      rcases tiingoStage_calls e ["yahoo"] with h | h <;> simp [h]

/-! ## C1 — the sufficiency threshold -/

/-- C1: with a known symbol and no force-refresh, the request is served from
the Historical Cache with no provider call exactly when the number of cached
bars in the window reaches `min(requiredDays * 0.7, 10)`; since the
threshold is 10 bars for every admissible window, exactly 10 bars take the
historical-sufficiency path and 9 bars escalate to the providers. -/
theorem sufficiency_threshold (e : SymbolEnv)
    (hk : e.symbolKnown = true) (hf : e.forceRefresh = false) :
    ((processSymbol e).calls = []
        ↔ ((requiredDays e.timeRange : ℚ) * (7 / 10)) ⊓ 10
            ≤ ((histBars e).length : ℚ))
    ∧ ((processSymbol e).calls = [] →
        processSymbol e = histPath e
        ∧ (processSymbol e).resp.chart.labels = (histBars e).map Prod.fst)
    ∧ ((histBars e).length = 10 → (processSymbol e).calls = [])
    ∧ ((histBars e).length = 9 → (processSymbol e).calls ≠ []) := by
  by_cases hs : sufficientB e.timeRange (histBars e).length = true
  · have hps := processSymbol_hist e hk hf hs
    have hcalls : (processSymbol e).calls = [] := by rw [hps]; rfl
    have hsuff : ((requiredDays e.timeRange : ℚ) * (7 / 10)) ⊓ 10
        ≤ ((histBars e).length : ℚ) := by
      unfold sufficientB at hs
      exact of_decide_eq_true hs
    refine ⟨⟨fun _ => hsuff, fun _ => hcalls⟩, ?_, fun _ => hcalls, ?_⟩
    · intro _
      refine ⟨hps, ?_⟩
      rw [hps]
      rfl
    · intro h9
      rw [sufficientB_eq, h9] at hs
      simp at hs
  · have hb : sufficientB e.timeRange (histBars e).length = false := by
      simpa using hs
    have hpe := processSymbol_escalate e (Or.inr (Or.inr hb))
    have hcalls : (processSymbol e).calls ≠ [] := by
      rw [hpe]
      exact escalate_calls_ne_nil e hf
    have hnsuff : ¬ ((requiredDays e.timeRange : ℚ) * (7 / 10)) ⊓ 10
        ≤ ((histBars e).length : ℚ) := by
      unfold sufficientB at hb
      exact of_decide_eq_false hb
    refine ⟨⟨fun hc => absurd hc hcalls, fun hle => absurd hle hnsuff⟩,
      fun hc => absurd hc hcalls, ?_, fun _ => hcalls⟩
    intro h10
    rw [sufficientB_eq, h10] at hb
    simp at hb

def envC1 : SymbolEnv where
  sid := 1
  symbolKnown := true
  forceRefresh := false
  refreshDailyOnly := false
  timeRange := .m1
  today := 10000
  nowMs := 0
  daily := dailyC5
  point := none
  yahooResp := none
  tiingoResp := none

def dailyC1b : Store :=
  upsertMany emptyStore 1 ((List.range' 9986 9).map fun d => (d, barC8))

def envC1b : SymbolEnv where
  sid := 1
  symbolKnown := true
  forceRefresh := false
  refreshDailyOnly := false
  timeRange := .m1
  today := 10000
  nowMs := 0
  daily := dailyC1b
  point := none
  yahooResp := none
  tiingoResp := none

/-- C1 witness: a concrete 30-day window holding exactly 10 bars is served
with no provider call, and the same window holding 9 bars escalates. -/
theorem sufficiency_threshold_witness :
    (processSymbol envC1).calls = [] ∧ (processSymbol envC1b).calls ≠ [] := by
  exact ⟨(sufficiency_threshold envC1 rfl rfl).2.2.1 (by decide),
         (sufficiency_threshold envC1b rfl rfl).2.2.2 (by decide)⟩

/-! ## C2 — provider escalation and what actually reaches the cache -/

def tiingoC2 : TiingoStock where
  sd := { currentPrice := some 50, open_ := some 49, high := some 51,
          low := some 48, volume := some 1000 }
  chart :=
    { labels := [9989, 9990, 9991, 9992, 9993, 9996, 9997, 9998, 9999, 10000]
      open_ := [1, 1, 1, 1, 1, 1, 1, 1, 1, 1]
      high := [1, 1, 1, 1, 1, 1, 1, 1, 1, 1]
      low := [1, 1, 1, 1, 1, 1, 1, 1, 1, 1]
      close := [1, 1, 1, 1, 1, 1, 1, 1, 1, 1]
      volume := [1, 1, 1, 1, 1, 1, 1, 1, 1, 1] }

def envC2 : SymbolEnv where
  sid := 1
  symbolKnown := true
  forceRefresh := false
  refreshDailyOnly := false
  timeRange := .m1
  today := 10000
  nowMs := 0
  daily := emptyStore
  point := none
  yahooResp := none
  tiingoResp := some tiingoC2

/-- C2 counterexample: with an empty Historical Cache, no force-refresh, the
first adapter (Yahoo) returning nothing and Tiingo returning a valid 10-row
series, the response's `dataSource` is indeed `"tiingo"` — but the series is
NOT written to the Historical Cache: the row for the label 9989 (one of the
10 returned dates) is still absent, because the bulk 20-day upsert runs on
this branch only under force-refresh.  This refutes the claim that all 10
rows appear in the Historical Cache. -/
theorem tiingo_series_not_bulk_upserted :
    (processSymbol envC2).resp.dataSource = "tiingo"
    ∧ (processSymbol envC2).daily (1, 9989) = none := by
  have h := processSymbol_escalate envC2
    (Or.inr (Or.inr (by rw [sufficientB_eq]; decide)))
  rw [h]
  exact ⟨by decide, by decide⟩

/-- C2 amended: with an insufficient Historical Cache and no force-refresh,
the Orchestrator tries Yahoo first, then Tiingo (then Yahoo again).  On a
Yahoo first-try success the response is `dataSource = "yahoo"` and the most
recent 20 days of the normalized series are bulk-upserted on top of the
`saveToCache` write.  If Yahoo yields nothing and Tiingo returns a valid
series, the response is `dataSource = "tiingo"` with the full series and the
latest point is written to the Point Cache, but the series is NOT
bulk-upserted into the Historical Cache: only today's key can change (via
`saveToCache`); the bulk upsert on the Tiingo branch runs only under
force-refresh. -/
theorem provider_escalation (e : SymbolEnv) (t : TiingoStock)
    (hf : e.forceRefresh = false)
    (hins : sufficientB e.timeRange (histBars e).length = false) :
    (∀ y : YahooStock, e.yahooResp = some y →
        processSymbol e = yahooFirstResult e y
        ∧ (processSymbol e).resp.dataSource = "yahoo"
        ∧ (processSymbol e).calls = ["yahoo"]
        ∧ (processSymbol e).daily
            = upsertChartDataForLastDays
                (saveToCache e.sid y.sd "yahoo" (!e.refreshDailyOnly) e.today
                  e.nowMs ⟨e.daily, e.point⟩).daily
                e.sid (normYahooChart y.chart) "yahoo" 20)
    ∧ (e.yahooResp = none → e.tiingoResp = some t →
        t.chart.labels.isEmpty = false →
        (processSymbol e).calls = ["yahoo", "tiingo"]
        ∧ (processSymbol e).resp.dataSource = "tiingo"
        ∧ (processSymbol e).resp.chart = t.chart
        ∧ (∀ k : Nat × Day, k.2 ≠ e.today →
            (processSymbol e).daily k = e.daily k)
        ∧ (e.refreshDailyOnly = false →
            (processSymbol e).point
              = some { asOf := e.nowMs, price := jsNum t.sd.currentPrice,
                       source := "tiingo" })) := by
  have hesc := processSymbol_escalate e (Or.inr (Or.inr hins))
  constructor
  · intro y hy
    have hred : processSymbol e = yahooFirstResult e y := by
      rw [hesc]
      unfold escalate
      rw [hf, hy]
      rfl
    rw [hred]
    exact ⟨rfl, rfl, rfl, rfl⟩
  · intro hy ht hlbl
    have hred : processSymbol e = tiingoSuccessResult e t (["yahoo"] ++ ["tiingo"]) := by
      rw [hesc]
      unfold escalate
      rw [hf, hy]
      unfold tiingoStage
      rw [ht]
      dsimp only
      rw [hlbl]
      simp
    rw [hred]
    have hd : (tiingoSuccessResult e t (["yahoo"] ++ ["tiingo"])).daily
        = (saveToCache e.sid t.sd "tiingo" (!e.refreshDailyOnly) e.today
            e.nowMs ⟨e.daily, e.point⟩).daily := by
      unfold tiingoSuccessResult
      dsimp only
      rw [hf]
      rfl
    refine ⟨rfl, rfl, rfl, ?_, ?_⟩
    · intro k hk
      rw [hd]
      exact saveToCache_daily_frame _ _ _ _ _ _ _ k
        (fun hkk => hk (by rw [hkk]))
    · intro hrdo
      show (saveToCache e.sid t.sd "tiingo" (!e.refreshDailyOnly) e.today
        e.nowMs ⟨e.daily, e.point⟩).point = _
      rw [hrdo, Bool.not_false, saveToCache_point_of_savePriceCache]

/-- C2 witness: on the concrete environment of the counterexample (Yahoo
empty, Tiingo with a 10-row series, no force-refresh), the amended claim's
Tiingo branch is exercised: the calls are Yahoo then Tiingo, the response is
the Tiingo series, an unrelated key is untouched, and the Point Cache holds
the Tiingo point stamped now. -/
theorem provider_escalation_witness :
    (processSymbol envC2).calls = ["yahoo", "tiingo"]
    ∧ (processSymbol envC2).resp.dataSource = "tiingo"
    ∧ (processSymbol envC2).daily (2, 5) = envC2.daily (2, 5)
    ∧ (processSymbol envC2).point
        = some { asOf := 0, price := 50, source := "tiingo" } := by
  have h := (provider_escalation envC2 tiingoC2 rfl
    (by rw [sufficientB_eq]; decide)).2 rfl rfl (by decide)
  exact ⟨h.1, h.2.1, h.2.2.2.1 (2, 5) (by decide), h.2.2.2.2 rfl⟩

/-! ## C4 — degraded responses when every provider fails -/

theorem dbFallback_spec (e : SymbolEnv) (c : List String) :
    ((e.symbolKnown = false ∨ (histBars e).isEmpty = true) →
      (dbFallback e c).resp = errorResp)
    ∧ (e.symbolKnown = true → (histBars e).isEmpty = false →
      (dbFallback e c).resp.dataSource = "daily_prices"
      ∧ (dbFallback e c).resp.chart.labels = (histBars e).map Prod.fst)
    ∧ (dbFallback e c).daily = e.daily
    ∧ (dbFallback e c).point = e.point := by
  simp only [dbFallback]
  by_cases hk : e.symbolKnown = true
  · simp only [hk, if_true]
    by_cases hr : (histBars e).isEmpty = true
    · simp [hr]
    · simp [hr, hk]
  · simp [hk]

/-- C4: when Yahoo and Tiingo both yield nothing for a symbol (and the
Historical Cache was insufficient), the Orchestrator serves whatever rows
exist in the requested window as a degraded `dataSource = "daily_prices"`
response without touching the stores; with zero rows in range (or an
unresolvable symbol) it serves the terminal record — `dataSource = "error"`
with all-empty chart arrays — instead of failing; and each symbol of a batch
is resolved independently, so one symbol's outcome cannot affect another's. -/
theorem total_failure_path (e : SymbolEnv)
    (hy : e.yahooResp = none) (ht : e.tiingoResp = none)
    (hins : sufficientB e.timeRange (histBars e).length = false) :
    (e.symbolKnown = true → (histBars e).isEmpty = false →
        (processSymbol e).resp.dataSource = "daily_prices"
        ∧ (processSymbol e).resp.chart.labels = (histBars e).map Prod.fst
        ∧ (processSymbol e).daily = e.daily
        ∧ (processSymbol e).point = e.point)
    ∧ ((e.symbolKnown = false ∨ (histBars e).isEmpty = true) →
        (processSymbol e).resp = errorResp
        ∧ (processSymbol e).resp.dataSource = "error"
        ∧ (processSymbol e).resp.chart.labels = []
        ∧ (processSymbol e).resp.chart.close = [])
    ∧ (∀ (es : List SymbolEnv) (i : Nat),
        (processBatch es).get? i = (es.get? i).map processSymbol) := by
  have hesc := processSymbol_escalate e (Or.inr (Or.inr hins))
  have hyst : ∀ c, yahooStage e c = dbFallback e (c ++ ["yahoo"]) := by
    intro c
    unfold yahooStage
    rw [hy]
  have htst : ∀ c, tiingoStage e c = yahooStage e (c ++ ["tiingo"]) := by
    intro c
    unfold tiingoStage
    rw [ht]
  have hdb : ∃ c, processSymbol e = dbFallback e c := by
    rw [hesc]
    unfold escalate
    by_cases hfr : e.forceRefresh = true
    · rw [hfr]
      exact ⟨_, by rw [if_pos rfl, htst, hyst]⟩
    · have hff : e.forceRefresh = false := by simpa using hfr
      rw [hff, hy]
      exact ⟨_, by rw [if_neg (by simp), htst, hyst]⟩
  obtain ⟨c, hc⟩ := hdb
  rw [hc]
  have hspec := dbFallback_spec e c
  refine ⟨?_, ?_, ?_⟩
  · intro hk hr
    exact ⟨(hspec.2.1 hk hr).1, (hspec.2.1 hk hr).2, hspec.2.2.1, hspec.2.2.2⟩
  · intro hfail
    have he := hspec.1 hfail
    exact ⟨he, by rw [he]; rfl, by rw [he]; rfl, by rw [he]; rfl⟩
  · intro es i
    simp [processBatch]

def dailyC4 : Store :=
  upsertMany emptyStore 1 ([9990, 9991, 9992].map fun d => (d, barC8))

def envC4 : SymbolEnv where
  sid := 1
  symbolKnown := true
  forceRefresh := false
  refreshDailyOnly := false
  timeRange := .m1
  today := 10000
  nowMs := 0
  daily := dailyC4
  point := none
  yahooResp := none
  tiingoResp := none

def envC4b : SymbolEnv where
  sid := 1
  symbolKnown := true
  forceRefresh := false
  refreshDailyOnly := false
  timeRange := .m1
  today := 10000
  nowMs := 0
  daily := emptyStore
  point := none
  yahooResp := none
  tiingoResp := none

/-- C4 witness: with all providers empty, a 3-bar (insufficient but
non-empty) window is served as a degraded `daily_prices` response, and an
empty window is served as the terminal error record. -/
theorem total_failure_path_witness :
    (processSymbol envC4).resp.dataSource = "daily_prices"
    ∧ (processSymbol envC4b).resp = errorResp := by
  exact ⟨((total_failure_path envC4 rfl rfl
      (by rw [sufficientB_eq]; decide)).1 rfl (by decide)).1,
    (total_failure_path envC4b rfl rfl
      (by rw [sufficientB_eq]; decide)).2.1 (Or.inr (by decide)) |>.1⟩
